import Mathlib

/-!
# Verification of the gRPC frame decoder (`src/tonic/src/codec/decode.rs`)

Shallow embedding of `Streaming<T>`: `decode_chunk` (the per-frame state
machine over the accumulation buffer), the body-pumping loop inside
`poll_next`, and the trailer/status tail of `poll_next`.

Bytes are modelled as `Nat` (the wire carries values `< 256`; the arithmetic
used by the code — equality tests on the flag byte and the big-endian u32 —
agrees with the Rust semantics on that range).  The buffer `BytesMut` is a
`List Nat` consumed from the head.  The external collaborators (the
`Decoder` trait object, `crate::status::infer_grpc_status`,
`Status::from_error`, and the transport body) are not part of `src/`, so
they are modelled from the spec where noted.
-/

namespace TonicDecode

/-- gRPC status codes (model of `crate::Code`, which is outside `src/`).
Modelled from the spec: the constructors the decoder and Status Inference
use, with the standard gRPC numbering (`NotFound = 5` as in the spec's
scenario `{status:5, message:"not found"}`). -/
inductive Code where
  | Ok
  | Cancelled
  | Unknown
  | InvalidArgument
  | DeadlineExceeded
  | NotFound
  | AlreadyExists
  | PermissionDenied
  | ResourceExhausted
  | FailedPrecondition
  | Aborted
  | OutOfRange
  | Unimplemented
  | Internal
  | Unavailable
  | DataLoss
  | Unauthenticated
  deriving DecidableEq, Repr

/-- Modelled from the spec: the numeric grpc-status → `Code` mapping used by
Status Inference ("status code + message"; code 5 is the spec scenario's
"not found"). Unknown numbers map to `Unknown`. -/
def Code.fromNat : Nat → Code
  | 0 => .Ok
  | 1 => .Cancelled
  | 2 => .Unknown
  | 3 => .InvalidArgument
  | 4 => .DeadlineExceeded
  | 5 => .NotFound
  | 6 => .AlreadyExists
  | 7 => .PermissionDenied
  | 8 => .ResourceExhausted
  | 9 => .FailedPrecondition
  | 10 => .Aborted
  | 11 => .OutOfRange
  | 12 => .Unimplemented
  | 13 => .Internal
  | 14 => .Unavailable
  | 15 => .DataLoss
  | 16 => .Unauthenticated
  | _ => .Unknown

/-- Model of `crate::Status` (outside `src/`): a status code plus a
human-readable message, as constructed by `Status::new(code, message)`. -/
structure Status where
  code : Code
  message : String
  deriving DecidableEq, Repr

/-- Modelled from the spec: `Status::from_error` (outside `src/`) wraps a
transport-level error into "a status-shaped failure"; the error is carried
as its rendered message. -/
def Status.from_error (e : String) : Status :=
  ⟨.Unknown, e⟩

/-- `enum State` of `decode.rs` lines 26–30: `ReadHeader`, or
`ReadBody { compression, len }`. -/
inductive State where
  | ReadHeader
  | ReadBody (compression : Bool) (len : Nat)
  deriving DecidableEq, Repr

/-- `enum Direction` of `decode.rs` lines 32–37.  The `Response` payload is
the HTTP `StatusCode`, modelled as a `Nat`. -/
inductive Direction where
  | Request
  | Response (status : Nat)
  | EmptyResponse
  deriving DecidableEq, Repr

/-- The pluggable `Decoder` trait object (`self.decoder`), whose
implementations are outside `src/`.  Modelled from the spec:
`decode(buffer_cursor) -> ok(message) | needs_more | error`, mutating the
buffer it is handed (`&mut BytesMut` becomes buffer-in, buffer-out). -/
structure Codec (M : Type) where
  decode : List Nat → Except Status (Option M) × List Nat

/-- What one call of `Streaming::decode_chunk` produces: its
`Result<Option<T>, Status>` return value together with the `self.state` and
`self.buf` it leaves behind. -/
structure DecodeChunkOut (M : Type) where
  result : Except Status (Option M)
  state : State
  buf : List Nat
  deriving Repr

/-- `buf.get_u32_be()`: big-endian unsigned 32-bit value of four bytes. -/
def u32be (b1 b2 b3 b4 : Nat) : Nat :=
  ((b1 * 256 + b2) * 256 + b3) * 256 + b4

/-- The `State::ReadBody` block of `decode_chunk` (`decode.rs` lines
138–156).  `remaining` is `buf.remaining()` of the *cursor* at entry to the
block: when the block is fall-through from a header parsed in the same call
the cursor has advanced 5 bytes (`remaining = buf.length - 5`), but when
`decode_chunk` is re-entered with state already `ReadBody` the cursor is
fresh (`remaining = buf.length`, the 5 still-buffered header bytes
included). `self.buf.advance(5)` is totalized as `List.drop 5`; the real
`advance` panics when the buffer is shorter than 5 bytes (reachable: state
`ReadBody` with `len = 0` re-entered on an empty buffer, after a
zero-length frame whose codec reported needs-more).  Every theorem below
exercises this arm only on buffers holding at least 5 bytes; the one state
whose real next step would panic is excluded by explicit hypothesis where
a theorem would otherwise rely on the totalization (the C7 theorem). -/
def readBodyStep (dec : Codec M) (c : Bool) (len : Nat) (remaining : Nat)
    (buf : List Nat) : DecodeChunkOut M :=
  if remaining < len then
    ⟨.ok none, .ReadBody c len, buf⟩
  else
    -- advance past the header
    match dec.decode (buf.drop 5) with
    | (.ok (some msg), rest) => ⟨.ok (some msg), .ReadHeader, rest⟩
    | (.ok none, rest) => ⟨.ok none, .ReadBody c len, rest⟩
    | (.error e, rest) => ⟨.error e, .ReadBody c len, rest⟩

/-- `Streaming::decode_chunk` (`decode.rs` lines 105–159).  A cursor over
`self.buf` is created; in state `ReadHeader` with at least 5 bytes the flag
byte dispatches: `0` reads the big-endian length and falls through to the
body block with the cursor advanced 5, `1` returns the `Unimplemented`
status, anything else the `Internal` one (state and buffer untouched).
With fewer than 5 bytes it returns `Ok(None)`.  In state `ReadBody` the
body block runs with a fresh cursor. -/
def decode_chunk (dec : Codec M) (st : State) (buf : List Nat) :
    DecodeChunkOut M :=
  match st with
  | .ReadHeader =>
    match buf with
    | b0 :: b1 :: b2 :: b3 :: b4 :: _ =>
      if b0 = 0 then
        readBodyStep dec false (u32be b1 b2 b3 b4) (buf.length - 5) buf
      else if b0 = 1 then
        ⟨.error ⟨.Unimplemented,
           "Message compressed, compression not supported yet."⟩,
         .ReadHeader, buf⟩
      else
        ⟨.error ⟨.Internal, "Unexpected compression flag: " ++ toString b0⟩,
         .ReadHeader, buf⟩
    | _ => ⟨.ok none, .ReadHeader, buf⟩
  | .ReadBody c len => readBodyStep dec c len buf.length buf

/-- One readiness result of the byte source's `poll_data`: a delivered
chunk, or a transport error (the error rendered as a message).  An
exhausted event list models EOF (`poll_data` returning `None`). -/
inductive SrcEvent where
  | chunk (data : List Nat)
  | fail (e : String)
  deriving DecidableEq, Repr

/-- Trailing metadata, as far as Status Inference reads it: the grpc-status
code and grpc-message entries. -/
structure Trailers where
  grpcStatus : Option Nat
  grpcMessage : Option String
  deriving DecidableEq, Repr

/-- Modelled from the spec: `crate::status::infer_grpc_status` (outside
`src/`).  "maps trailing metadata (status code + message) into a
success/failure outcome"; "a missing or non-zero status field maps to
failure; absence of any status field on an otherwise-clean stream is itself
a protocol violation, not silently success". -/
def infer_grpc_status (trailer : Option Trailers) (httpStatus : Nat) :
    Except Status Unit :=
  match trailer with
  | some t =>
    match t.grpcStatus with
    | some 0 => .ok ()
    | some n => .error ⟨Code.fromNat n, t.grpcMessage.getD ""⟩
    | none =>
      .error ⟨.Internal,
        "grpc-status missing in trailers, HTTP status " ++ toString httpStatus⟩
  | none =>
    .error ⟨.Internal,
      "grpc-status missing in trailers, HTTP status " ++ toString httpStatus⟩

/-- How the `loop` inside `Streaming::poll_next` (`decode.rs` lines
166–203) exits: with a terminal item (a decoded message or a failure
surfaced through `?`), or cleanly (`break`) after EOF with an empty
buffer. -/
inductive LoopOut (M : Type) where
  | item (it : Except Status M) (st : State) (buf : List Nat)
      (src : List SrcEvent)
  | clean (st : State) (buf : List Nat) (src : List SrcEvent)
  deriving Repr

/-- The `loop` of `poll_next`: run `decode_chunk`; a decoded message or an
error is returned as this poll's item (`self.decode_chunk()?` /
`Poll::Ready(Some(Ok(item)))`) with the source untouched.  Otherwise poll
the body: a chunk is appended (`self.buf.put(data)`) and the loop
continues; a body error is wrapped by `Status::from_error` and returned
through `?`; EOF with a non-empty buffer returns the `Internal`
"Unexpected EOF" status through `?`, EOF with an empty buffer breaks out
cleanly.  (The `decode_chunk` step runs before the body is polled, so both
arms of the source match begin with it; the arms that return an item leave
the source exactly as it was.) -/
def decodeLoop (dec : Codec M) : State → List Nat → List SrcEvent → LoopOut M
  | st, buf, [] =>
    match decode_chunk dec st buf with
    | ⟨.error e, st', buf'⟩ => .item (.error e) st' buf' []
    | ⟨.ok (some msg), st', buf'⟩ => .item (.ok msg) st' buf' []
    | ⟨.ok none, st', buf'⟩ =>
      if buf'.isEmpty then
        .clean st' buf' []
      else
        .item (.error ⟨.Internal, "Unexpected EOF decoding stream."⟩)
          st' buf' []
  | st, buf, ev :: rest =>
    match decode_chunk dec st buf with
    | ⟨.error e, st', buf'⟩ => .item (.error e) st' buf' (ev :: rest)
    | ⟨.ok (some msg), st', buf'⟩ => .item (.ok msg) st' buf' (ev :: rest)
    | ⟨.ok none, st', buf'⟩ =>
      match ev with
      | .chunk data => decodeLoop dec st' (buf' ++ data) rest
      | .fail e => .item (.error (Status.from_error e)) st' buf' rest

/-- What one `poll_next` call produces: the yielded item (`none` is
`Poll::Ready(None)`, stream end) and the decoder state, buffer and
remaining source events afterwards. -/
structure PollOut (M : Type) where
  item : Option (Except Status M)
  state : State
  buf : List Nat
  src : List SrcEvent
  deriving Repr

/-- `Streaming::poll_next` (`decode.rs` lines 165–222): the decode loop,
then — only when the loop exits cleanly and only for
`Direction::Response` — the trailers are polled (`trailers` is the body's
trailer result, re-deliverable on a later poll) and fed to
`infer_grpc_status`; an inference failure or a trailer transport error is
the final item, otherwise (and for the other directions) the stream ends
with `Poll::Ready(None)`. -/
def pollNext (dec : Codec M) (dir : Direction)
    (trailers : Except String (Option Trailers)) (st : State)
    (buf : List Nat) (src : List SrcEvent) : PollOut M :=
  match decodeLoop dec st buf src with
  | .item it st' buf' rest => ⟨some it, st', buf', rest⟩
  | .clean st' buf' rest =>
    match dir with
    | .Response httpStatus =>
      match trailers with
      | .ok trailer =>
        match infer_grpc_status trailer httpStatus with
        | .error e => ⟨some (.error e), st', buf', rest⟩
        | .ok _ => ⟨none, st', buf', rest⟩
      | .error e => ⟨some (.error (Status.from_error e)), st', buf', rest⟩
    | .Request => ⟨none, st', buf', rest⟩
    | .EmptyResponse => ⟨none, st', buf', rest⟩

/-- Driving the stream to completion: `poll_next` repeatedly, collecting the
items.  Per the stream contract a failure item is terminal (§7: "after any
error the decoder must not be driven further"), so collection stops at the
first error or at stream end.  `fuel` bounds the number of polls (the
collaborating codec is arbitrary, so termination cannot be derived). -/
def runStream (dec : Codec M) (dir : Direction)
    (trailers : Except String (Option Trailers)) :
    Nat → State → List Nat → List SrcEvent → List (Except Status M)
  | 0, _, _, _ => []
  | fuel + 1, st, buf, src =>
    match pollNext dec dir trailers st buf src with
    | ⟨none, _, _, _⟩ => []
    | ⟨some (.error e), _, _, _⟩ => [.error e]
    | ⟨some (.ok msg), st', buf', src'⟩ =>
      .ok msg :: runStream dec dir trailers fuel st' buf' src'

/-- Modelled from the spec: a concrete external Message Codec obeying the
collaborator contract ("deserializes exactly one message and advances the
buffer past it", `needs_more` otherwise, never consuming on `needs_more`).
Its self-delimiting format: one length byte, then that many payload bytes;
the message is the payload. -/
def lenPrefixedCodec : Codec (List Nat) :=
  ⟨fun buf =>
    match buf with
    | [] => (.ok none, [])
    | n :: rest =>
      if rest.length < n then (.ok none, n :: rest)
      else (.ok (some (rest.take n)), rest.drop n)⟩

/-- Modelled from the spec: a trivial external bytes codec whose message is
the whole buffered payload, verbatim (the spec's concrete scenario reads the
frame payload back as the message).  `needs_more` on an empty buffer. -/
def bytesCodec : Codec (List Nat) :=
  ⟨fun buf => if buf.isEmpty then (.ok none, buf) else (.ok (some buf), [])⟩

/-- A diagnostic external codec whose decoded message is exactly the buffer
it was handed (and which consumes it whole): the yielded message records the
bytes the framing layer made available to the codec. -/
def spyCodec : Codec (List Nat) :=
  ⟨fun buf => (.ok (some buf), [])⟩

/-- The compression bit a decode state carries (`false` for
`ReadHeader`, which carries none). -/
def State.compressionFlag : State → Bool
  | .ReadBody c _ => c
  | .ReadHeader => false

/-- Every way `poll_next` touches the pair `(self.state, self.buf)`: a
`decode_chunk` call, or appending a delivered chunk (`self.buf.put(data)`).
Chunks are arbitrary, so reachability under these steps over-approximates
what any actual byte source can drive the decoder to. -/
inductive DecoderStep (dec : Codec M) :
    State × List Nat → State × List Nat → Prop where
  | decode (st : State) (buf : List Nat) :
      DecoderStep dec (st, buf)
        ((decode_chunk dec st buf).state, (decode_chunk dec st buf).buf)
  | append (st : State) (buf data : List Nat) :
      DecoderStep dec (st, buf) (st, buf ++ data)

/-- The decoder states reachable from the freshly-constructed decoder
(`State::ReadHeader` and an empty buffer, as all three constructors set
up). -/
def DecoderReachable (dec : Codec M) (p : State × List Nat) : Prop :=
  Relation.ReflTransGen (DecoderStep dec) (State.ReadHeader, []) p

/-! ## Helper lemmas -/

/-- On an empty buffer, `decode_chunk` returns need-more-data with state
and buffer unchanged, provided the state is not `ReadBody` with length 0 —
in every other state the length checks fire before anything is consumed
(and before the panicking `advance(5)` that the excluded state would
reach). -/
theorem decode_chunk_nil_safe (dec : Codec M) (st : State)
    (hsafe : ∀ c : Bool, st ≠ State.ReadBody c 0) :
    decode_chunk dec st [] = ⟨.ok none, st, []⟩ := by
  cases st with
  | ReadHeader => rfl
  | ReadBody c len =>
    cases len with
    | zero => exact absurd rfl (hsafe c)
    | succ n =>
      have hc : ([] : List Nat).length < n + 1 := by simp
      simp only [decode_chunk, readBodyStep, if_pos hc]

/-- The decode loop exits cleanly only with an empty buffer and an
exhausted source. -/
theorem decodeLoop_clean_nil (dec : Codec M) (src : List SrcEvent) :
    ∀ (st : State) (buf : List Nat) {st' : State} {buf' : List Nat}
      {rest : List SrcEvent},
      decodeLoop dec st buf src = .clean st' buf' rest →
      buf' = [] ∧ rest = [] := by
  induction src with
  | nil =>
    intro st buf st' buf' rest h
    rw [decodeLoop] at h
    rcases hd : decode_chunk dec st buf with ⟨res, st1, buf1⟩
    rw [hd] at h
    rcases res with e | m
    · injection h
    · rcases m with _ | msg
      · rcases buf1 with _ | ⟨b, bs⟩
        · injection h with h1 h2 h3
          exact ⟨h2.symm, h3.symm⟩
        · injection h
      · injection h
  | cons ev rest ih =>
    intro st buf st' buf' r h
    rw [decodeLoop] at h
    rcases hd : decode_chunk dec st buf with ⟨res, st1, buf1⟩
    rw [hd] at h
    rcases res with e | m
    · injection h
    · rcases m with _ | msg
      · rcases ev with data | e
        · exact ih st1 (buf1 ++ data) h
        · injection h
      · injection h

/-- The body block keeps the compression bit it was entered with, or
returns to `ReadHeader`. -/
theorem readBodyStep_flag (dec : Codec M) (c : Bool) (len remaining : Nat)
    (buf : List Nat) :
    (readBodyStep dec c len remaining buf).state.compressionFlag = c ∨
    (readBodyStep dec c len remaining buf).state = .ReadHeader := by
  simp only [readBodyStep]
  split
  · exact .inl rfl
  · split
    · exact .inr rfl
    · exact .inl rfl
    · exact .inl rfl

/-- `decode_chunk` never stores `compression = true`: the only transition
into `ReadBody` (the flag-0 fall-through) stores `is_compressed = false`,
the flag-1 and bad-flag arms return before any transition, and the body
block keeps the compression bit it was entered with. -/
theorem decode_chunk_flag (dec : Codec M) (st : State) (buf : List Nat)
    (h : st.compressionFlag = false) :
    (decode_chunk dec st buf).state.compressionFlag = false := by
  cases st with
  | ReadHeader =>
    rcases buf with _ | ⟨b0, _ | ⟨b1, _ | ⟨b2, _ | ⟨b3, _ | ⟨b4, rest⟩⟩⟩⟩⟩
    · rfl
    · rfl
    · rfl
    · rfl
    · rfl
    · simp only [decode_chunk]
      split
      · rcases readBodyStep_flag dec false (u32be b1 b2 b3 b4)
          ((b0 :: b1 :: b2 :: b3 :: b4 :: rest).length - 5)
          (b0 :: b1 :: b2 :: b3 :: b4 :: rest) with hc | hh
        · exact hc
        · rw [hh]; rfl
      · split
        · rfl
        · rfl
  | ReadBody c len =>
    have hc : c = false := h
    subst hc
    simp only [decode_chunk]
    rcases readBodyStep_flag dec false len buf.length buf with hc | hh
    · exact hc
    · rw [hh]; rfl

/-- Every reachable decoder state carries `compression = false`. -/
theorem reachable_uncompressed (dec : Codec M) (p : State × List Nat)
    (h : DecoderReachable dec p) : p.1.compressionFlag = false := by
  induction h with
  | refl => rfl
  | tail hsteps hstep ih =>
    cases hstep with
    | decode st buf => exact decode_chunk_flag dec st buf ih
    | append st buf data => exact ih

/-! ## Claim theorems -/

/-- C1: the claim says the decoded message sequence is identical for every
chunking of the same bytes.  The code violates this: the single valid frame
`[0,0,0,0,8] ++ [7,10,20,30,40,50,60,70]` (flag 0, length 8, a payload that
is one complete codec message) decodes to its one message when delivered as
one chunk, but delivered as `[header]`, `[7,10,20,30]`, `[40,50,60,70]` the
re-entered `ReadBody` length check counts the 5 still-buffered header bytes
(`buf.remaining()` of a fresh cursor), so the header is discarded while only
4 payload bytes are buffered, 5 further payload bytes are discarded by the
next `advance(5)`, and the stream ends in the "Unexpected EOF" failure. -/
theorem c1_chunking_dependent_evaluation :
    runStream lenPrefixedCodec .Request (.ok none) 5 .ReadHeader []
      [.chunk [0, 0, 0, 0, 8, 7, 10, 20, 30, 40, 50, 60, 70]] =
      [.ok [10, 20, 30, 40, 50, 60, 70]]
    ∧ runStream lenPrefixedCodec .Request (.ok none) 5 .ReadHeader []
      [.chunk [0, 0, 0, 0, 8], .chunk [7, 10, 20, 30],
       .chunk [40, 50, 60, 70]] =
      [.error ⟨.Internal, "Unexpected EOF decoding stream."⟩] :=
  ⟨rfl, rfl⟩

/-- C2: the claim says that in state `AwaitingBody{length}` with fewer than
`length` payload bytes buffered beyond the 5-byte header, `decode_chunk`
returns need-more-data without consuming any bytes — also on re-entry.  The
code violates this: re-entered in `ReadBody false 7` on a 9-byte buffer
(5 header bytes + 4 payload bytes, and 4 < 7), it discards the 5 header
bytes and invokes the codec, because the fresh cursor's `remaining()` (9)
is compared against `len` (7) with the header bytes still counted. -/
theorem c2_reentry_consumes_bytes :
    ([0, 0, 0, 0, 7, 7, 10, 20, 30] : List Nat).length - 5 < 7
    ∧ decode_chunk lenPrefixedCodec (State.ReadBody false 7)
        [0, 0, 0, 0, 7, 7, 10, 20, 30] =
        ⟨.ok none, .ReadBody false 7, [7, 10, 20, 30]⟩
    ∧ ([7, 10, 20, 30] : List Nat) ≠ [0, 0, 0, 0, 7, 7, 10, 20, 30] :=
  ⟨by decide, rfl, by decide⟩

/-- C3: the claim says the codec always sees at least the declared payload
length of bytes in the `AwaitingBody` branch, so its needs-more result (and
the `Ok(None) => return Ok(None)` arm after the header was discarded) is
unreachable.  The code violates this: re-entered in `ReadBody false 7` on
`[0,0,0,0,7] ++ [7,10,20,30]`, the diagnostic codec records that it was
handed only `[7,10,20,30]` — 4 bytes, fewer than the declared 7 — and with
the spec-conforming codec the needs-more result is silently returned as
need-more-data with the buffer already advanced past the header. -/
theorem c3_codec_short_invocation :
    decode_chunk spyCodec (State.ReadBody false 7)
      [0, 0, 0, 0, 7, 7, 10, 20, 30] =
      ⟨.ok (some [7, 10, 20, 30]), .ReadHeader, []⟩
    ∧ ([7, 10, 20, 30] : List Nat).length < 7
    ∧ decode_chunk lenPrefixedCodec (State.ReadBody false 7)
        [0, 0, 0, 0, 7, 7, 10, 20, 30] =
        ⟨.ok none, .ReadBody false 7, [7, 10, 20, 30]⟩ :=
  ⟨rfl, by decide, rfl⟩

/-- C8: the frame `[0x00, 0x00,0x00,0x00,0x03, 0x41,0x42,0x43]` delivered
as the two chunks `[0x00,0x00]` and `[0x00,0x00,0x03,0x41,0x42,0x43]`
yields exactly one decoded message with payload `0x41,0x42,0x43` ("ABC"),
and then the stream ends. -/
theorem c8_abc_scenario :
    runStream bytesCodec .Request (.ok none) 3 .ReadHeader []
      [.chunk [0x00, 0x00], .chunk [0x00, 0x00, 0x03, 0x41, 0x42, 0x43]] =
      [.ok [0x41, 0x42, 0x43]] :=
  rfl

/-- C7 counterexample: the claim says that once the stream has reported a
terminal failure item, every subsequent poll reports the same ended outcome
and never re-emits a failure item.  The code violates this: with the
malformed header `[2,0,0,0,0]` buffered, the first poll yields the
`Internal` bad-flag failure item, and — the state, the buffer and the
exhausted source being left exactly as they were — the next poll re-emits
that same failure item instead of reporting end. -/
theorem c7_failure_item_reemitted :
    (pollNext lenPrefixedCodec .Request (.ok none) .ReadHeader
        [2, 0, 0, 0, 0] []).item =
      some (.error ⟨.Internal, "Unexpected compression flag: 2"⟩)
    ∧ pollNext lenPrefixedCodec .Request (.ok none)
        (pollNext lenPrefixedCodec .Request (.ok none) .ReadHeader
          [2, 0, 0, 0, 0] []).state
        (pollNext lenPrefixedCodec .Request (.ok none) .ReadHeader
          [2, 0, 0, 0, 0] []).buf
        (pollNext lenPrefixedCodec .Request (.ok none) .ReadHeader
          [2, 0, 0, 0, 0] []).src =
        ⟨some (.error ⟨.Internal, "Unexpected compression flag: 2"⟩),
         .ReadHeader, [2, 0, 0, 0, 0], []⟩
    ∧ (some (.error ⟨.Internal, "Unexpected compression flag: 2"⟩) :
        Option (Except Status (List Nat))) ≠ none :=
  ⟨rfl, rfl, by simp⟩

/-- C4: in state `AwaitingHeader` with at least 5 bytes buffered, flag byte
0 proceeds to `AwaitingBody` carrying the big-endian u32 length of bytes
1–4 (observed with the body still incomplete, so the transition is the
call's outcome); flag 1 terminates the stream with the `Unimplemented`
failure and yields no message, whatever bytes follow and whatever the
source still holds; every flag 2 and above terminates it with the
`Internal` failure naming the flag. -/
theorem c4_header_flag_dispatch (dec : Codec M) (dir : Direction)
    (trailers : Except String (Option Trailers)) (src : List SrcEvent)
    (fuel : Nat) (b0 b1 b2 b3 b4 : Nat) (rest : List Nat) :
    (b0 = 0 → rest.length < u32be b1 b2 b3 b4 →
      decode_chunk dec .ReadHeader (b0 :: b1 :: b2 :: b3 :: b4 :: rest) =
        ⟨.ok none, .ReadBody false (u32be b1 b2 b3 b4),
         b0 :: b1 :: b2 :: b3 :: b4 :: rest⟩)
    ∧ (b0 = 1 →
      runStream dec dir trailers (fuel + 1) .ReadHeader
          (b0 :: b1 :: b2 :: b3 :: b4 :: rest) src =
        [.error ⟨.Unimplemented,
          "Message compressed, compression not supported yet."⟩])
    ∧ (2 ≤ b0 →
      runStream dec dir trailers (fuel + 1) .ReadHeader
          (b0 :: b1 :: b2 :: b3 :: b4 :: rest) src =
        [.error ⟨.Internal,
          "Unexpected compression flag: " ++ toString b0⟩]) := by
  refine ⟨?_, ?_, ?_⟩
  · intro h0 hlen
    subst h0
    have hcond : (0 :: b1 :: b2 :: b3 :: b4 :: rest).length - 5 <
        u32be b1 b2 b3 b4 := by
      simp only [List.length_cons]
      omega
    simp only [decode_chunk, if_pos rfl, readBodyStep, if_pos hcond]
    simp
  · intro h1
    subst h1
    have hd : decode_chunk dec .ReadHeader (1 :: b1 :: b2 :: b3 :: b4 :: rest) =
        ⟨.error ⟨.Unimplemented,
          "Message compressed, compression not supported yet."⟩,
         .ReadHeader, 1 :: b1 :: b2 :: b3 :: b4 :: rest⟩ := rfl
    cases src with
    | nil => simp [runStream, pollNext, decodeLoop, hd]
    | cons ev rest' => simp [runStream, pollNext, decodeLoop, hd]
  · intro h2
    have hne0 : ¬ b0 = 0 := by omega
    have hne1 : ¬ b0 = 1 := by omega
    have hd : decode_chunk dec .ReadHeader (b0 :: b1 :: b2 :: b3 :: b4 :: rest) =
        ⟨.error ⟨.Internal, "Unexpected compression flag: " ++ toString b0⟩,
         .ReadHeader, b0 :: b1 :: b2 :: b3 :: b4 :: rest⟩ := by
      simp only [decode_chunk, if_neg hne0, if_neg hne1]
    cases src with
    | nil => simp [runStream, pollNext, decodeLoop, hd]
    | cons ev rest' => simp [runStream, pollNext, decodeLoop, hd]

/-- C4 witness: the three header-flag behaviors at concrete inputs — flag 0
with declared length 3 and no payload yet transitions to `ReadBody false 3`,
flag 1 makes the whole stream the single `Unimplemented` failure, flag 9 the
single `Internal` failure. -/
theorem c4_header_flag_dispatch_witness :
    decode_chunk lenPrefixedCodec .ReadHeader [0, 0, 0, 0, 3] =
      ⟨.ok none, .ReadBody false 3, [0, 0, 0, 0, 3]⟩
    ∧ runStream lenPrefixedCodec .Request (.ok none) 1 .ReadHeader
        [1, 0, 0, 0, 0] [] =
      [.error ⟨.Unimplemented,
        "Message compressed, compression not supported yet."⟩]
    ∧ runStream lenPrefixedCodec .Request (.ok none) 1 .ReadHeader
        [9, 0, 0, 0, 0] [] =
      [.error ⟨.Internal, "Unexpected compression flag: 9"⟩] :=
  ⟨(c4_header_flag_dispatch lenPrefixedCodec .Request (.ok none) [] 0
      0 0 0 0 3 []).1 rfl (by decide),
   (c4_header_flag_dispatch lenPrefixedCodec .Request (.ok none) [] 0
      1 0 0 0 0 []).2.1 rfl,
   (c4_header_flag_dispatch lenPrefixedCodec .Request (.ok none) [] 0
      9 0 0 0 0 []).2.2 (by decide)⟩

/-- C10: when header parsing fails on the compression flag (any non-zero
flag byte), `decode_chunk` leaves the state `ReadHeader` and the buffer
completely unchanged — the flag and length bytes were only read through the
cursor — so invoking it again on the decoder's resulting state and buffer
is the very same call and returns the very same failure (second
conjunct). -/
theorem c10_flag_error_preserves_buffer (dec : Codec M)
    (b0 b1 b2 b3 b4 : Nat) (rest : List Nat) (h : b0 ≠ 0) :
    decode_chunk dec .ReadHeader (b0 :: b1 :: b2 :: b3 :: b4 :: rest) =
      ⟨.error (if b0 = 1 then
          ⟨.Unimplemented, "Message compressed, compression not supported yet."⟩
        else
          ⟨.Internal, "Unexpected compression flag: " ++ toString b0⟩),
       .ReadHeader, b0 :: b1 :: b2 :: b3 :: b4 :: rest⟩
    ∧ decode_chunk dec
        (decode_chunk dec .ReadHeader
          (b0 :: b1 :: b2 :: b3 :: b4 :: rest)).state
        (decode_chunk dec .ReadHeader
          (b0 :: b1 :: b2 :: b3 :: b4 :: rest)).buf =
      decode_chunk dec .ReadHeader (b0 :: b1 :: b2 :: b3 :: b4 :: rest) := by
  have key : decode_chunk dec .ReadHeader
      (b0 :: b1 :: b2 :: b3 :: b4 :: rest) =
      ⟨.error (if b0 = 1 then
          ⟨.Unimplemented, "Message compressed, compression not supported yet."⟩
        else
          ⟨.Internal, "Unexpected compression flag: " ++ toString b0⟩),
       .ReadHeader, b0 :: b1 :: b2 :: b3 :: b4 :: rest⟩ := by
    by_cases h1 : b0 = 1
    · simp only [decode_chunk, if_neg h, if_pos h1]
    · simp only [decode_chunk, if_neg h, if_neg h1]
  refine ⟨key, ?_⟩
  rw [key]
  exact key

/-- C10 witness: the bad flag 3 at a concrete buffer — the failure is
returned with state and buffer untouched, and a second call repeats it. -/
theorem c10_flag_error_preserves_buffer_witness :
    decode_chunk lenPrefixedCodec .ReadHeader [3, 0, 0, 0, 0] =
      ⟨.error ⟨.Internal, "Unexpected compression flag: 3"⟩,
       .ReadHeader, [3, 0, 0, 0, 0]⟩
    ∧ decode_chunk lenPrefixedCodec
        (decode_chunk lenPrefixedCodec .ReadHeader [3, 0, 0, 0, 0]).state
        (decode_chunk lenPrefixedCodec .ReadHeader [3, 0, 0, 0, 0]).buf =
      decode_chunk lenPrefixedCodec .ReadHeader [3, 0, 0, 0, 0] :=
  ⟨(c10_flag_error_preserves_buffer lenPrefixedCodec 3 0 0 0 0 []
      (by decide)).1,
   (c10_flag_error_preserves_buffer lenPrefixedCodec 3 0 0 0 0 []
      (by decide)).2⟩

/-- C5: when the decode loop's `decode_chunk` step reports need-more-data
and the byte source is at EOF (no events left), a still non-empty buffer
makes the poll yield the `Internal` "Unexpected EOF" failure as its item,
while an empty buffer makes the loop exit cleanly with no error (the
`break`). -/
theorem c5_eof_semantics (dec : Codec M) (dir : Direction)
    (trailers : Except String (Option Trailers)) (st st' : State)
    (buf buf' : List Nat)
    (h : decode_chunk dec st buf = ⟨.ok none, st', buf'⟩) :
    (buf' ≠ [] →
      pollNext dec dir trailers st buf [] =
        ⟨some (.error ⟨.Internal, "Unexpected EOF decoding stream."⟩),
         st', buf', []⟩)
    ∧ (buf' = [] → decodeLoop dec st buf [] = .clean st' [] []) := by
  constructor
  · intro hne
    have hb : buf'.isEmpty = false := by
      cases buf' with
      | nil => exact absurd rfl hne
      | cons b bs => rfl
    have hl : decodeLoop dec st buf [] =
        .item (.error ⟨.Internal, "Unexpected EOF decoding stream."⟩)
          st' buf' [] := by
      rw [decodeLoop, h]
      simp [hb]
    simp [pollNext, hl]
  · intro he
    subst he
    rw [decodeLoop, h]
    simp

/-- C5 witness: EOF over the 1-byte buffer `[0]` (a partial header, 0 < N
< 5) yields the unexpected-EOF failure item; EOF over the empty buffer
exits the loop cleanly. -/
theorem c5_eof_semantics_witness :
    pollNext lenPrefixedCodec .Request (.ok none) .ReadHeader [0] [] =
      ⟨some (.error ⟨.Internal, "Unexpected EOF decoding stream."⟩),
       .ReadHeader, [0], []⟩
    ∧ decodeLoop lenPrefixedCodec .ReadHeader [] [] =
      .clean .ReadHeader [] [] :=
  ⟨(c5_eof_semantics lenPrefixedCodec .Request (.ok none) .ReadHeader
      .ReadHeader [0] [0] rfl).1 (by simp),
   (c5_eof_semantics lenPrefixedCodec .Request (.ok none) .ReadHeader
      .ReadHeader [] [] rfl).2 rfl⟩

/-- C6: after a clean loop exit (body EOF with an empty buffer), the
`Response` direction feeds the retrieved trailers to status inference: an
inference failure is emitted as exactly the one final item (that code and
message) and an inference success ends the stream with no item; the
`Request` and `EmptyResponse` directions end the stream with no item and
with an outcome independent of whatever the trailers are — they are never
consulted (the conclusion holds for every trailers value `t`). -/
theorem c6_response_trailer_semantics (dec : Codec M) (st st' : State)
    (buf buf' : List Nat) (src rest : List SrcEvent) (httpStatus : Nat)
    (trailer : Option Trailers)
    (h : decodeLoop dec st buf src = .clean st' buf' rest) :
    (∀ e : Status, infer_grpc_status trailer httpStatus = .error e →
      pollNext dec (.Response httpStatus) (.ok trailer) st buf src =
        ⟨some (.error e), st', buf', rest⟩)
    ∧ (infer_grpc_status trailer httpStatus = .ok () →
      pollNext dec (.Response httpStatus) (.ok trailer) st buf src =
        ⟨none, st', buf', rest⟩)
    ∧ (∀ t : Except String (Option Trailers),
      pollNext dec .Request t st buf src = ⟨none, st', buf', rest⟩)
    ∧ (∀ t : Except String (Option Trailers),
      pollNext dec .EmptyResponse t st buf src = ⟨none, st', buf', rest⟩) := by
  refine ⟨?_, ?_, ?_, ?_⟩
  · intro e he
    simp [pollNext, h, he]
  · intro he
    simp [pollNext, h, he]
  · intro t
    simp [pollNext, h]
  · intro t
    simp [pollNext, h]

/-- C6 witness: the spec scenario — body ends cleanly, trailers
`{status:5, message:"not found"}` yield exactly the one terminal `NotFound`
failure carrying that message; trailers `{status:0}` end the stream with no
item; a `Request` stream ends with no item whatever trailers value is
supplied. -/
theorem c6_response_trailer_semantics_witness :
    pollNext lenPrefixedCodec (.Response 200)
        (.ok (some ⟨some 5, some "not found"⟩)) .ReadHeader [] [] =
      ⟨some (.error ⟨.NotFound, "not found"⟩), .ReadHeader, [], []⟩
    ∧ pollNext lenPrefixedCodec (.Response 200) (.ok (some ⟨some 0, none⟩))
        .ReadHeader [] [] =
      ⟨none, .ReadHeader, [], []⟩
    ∧ pollNext lenPrefixedCodec .Request (.error "boom") .ReadHeader [] [] =
      ⟨none, .ReadHeader, [], []⟩ :=
  ⟨(c6_response_trailer_semantics lenPrefixedCodec .ReadHeader .ReadHeader
      [] [] [] [] 200 (some ⟨some 5, some "not found"⟩) rfl).1
      ⟨.NotFound, "not found"⟩ rfl,
   (c6_response_trailer_semantics lenPrefixedCodec .ReadHeader .ReadHeader
      [] [] [] [] 200 (some ⟨some 0, none⟩) rfl).2.1 rfl,
   (c6_response_trailer_semantics lenPrefixedCodec .ReadHeader .ReadHeader
      [] [] [] [] 200 none rfl).2.2.1 (.error "boom")⟩

/-- C7, amended: the stream has no fuse, so "ended" is not a sticky state
in general.  What does hold: (1) after natural end (`Ready(None)`) with
the source exhausted, every further poll keeps reporting the same end,
provided the decoder was not left in `ReadBody` with declared length 0 —
in that one corner (a zero-length frame whose codec reported needs-more on
the emptied buffer) the real code's next poll reaches `advance(5)` on an
empty buffer and panics rather than reporting end, so it is excluded by
hypothesis; in every other post-end state the re-poll's length checks fire
on the empty buffer before anything is consumed and the clean-exit path
repeats; (2) after a failure item produced by `decode_chunk` with state
and buffer unchanged (every header-flag failure is of this shape), a
further poll is the very same call and re-emits the same failure item
instead of reporting end. -/
theorem c7_end_behavior_amended (dec : Codec M) (dir : Direction)
    (trailers : Except String (Option Trailers)) (st : State)
    (buf : List Nat) (src : List SrcEvent) :
    (∀ st' buf',
      pollNext dec dir trailers st buf [] = ⟨none, st', buf', []⟩ →
      (∀ c : Bool, st' ≠ State.ReadBody c 0) →
      pollNext dec dir trailers st' buf' [] = ⟨none, st', buf', []⟩)
    ∧ (∀ e : Status, decode_chunk dec st buf = ⟨.error e, st, buf⟩ →
      pollNext dec dir trailers st buf src = ⟨some (.error e), st, buf, src⟩) := by
  constructor
  · intro st' buf' h hsafe
    rcases hl : decodeLoop dec st buf [] with
        ⟨it, st1, buf1, rest1⟩ | ⟨st1, buf1, rest1⟩
    · simp [pollNext, hl] at h
    · obtain ⟨hb1, hr1⟩ := decodeLoop_clean_nil dec [] st buf hl
      subst hb1
      subst hr1
      cases dir with
      | Request =>
        have hpoll1 : pollNext dec .Request trailers st buf [] =
            ⟨none, st1, [], []⟩ := by
          simp [pollNext, hl]
        rw [hpoll1] at h
        injection h with h0 h1 h2 h3
        subst h1
        subst h2
        have hstep : decodeLoop dec st1 [] [] = .clean st1 [] [] := by
          rw [decodeLoop, decode_chunk_nil_safe dec st1 hsafe]
          simp
        simp [pollNext, hstep]
      | EmptyResponse =>
        have hpoll1 : pollNext dec .EmptyResponse trailers st buf [] =
            ⟨none, st1, [], []⟩ := by
          simp [pollNext, hl]
        rw [hpoll1] at h
        injection h with h0 h1 h2 h3
        subst h1
        subst h2
        have hstep : decodeLoop dec st1 [] [] = .clean st1 [] [] := by
          rw [decodeLoop, decode_chunk_nil_safe dec st1 hsafe]
          simp
        simp [pollNext, hstep]
      | Response sc =>
        cases trailers with
        | error e =>
          have hpoll1 : pollNext dec (.Response sc) (.error e) st buf [] =
              ⟨some (.error (Status.from_error e)), st1, [], []⟩ := by
            simp [pollNext, hl]
          rw [hpoll1] at h
          injection h with h0 h1 h2 h3
          exact Option.noConfusion h0
        | ok trailer =>
          cases hi : infer_grpc_status trailer sc with
          | error e =>
            have hpoll1 : pollNext dec (.Response sc) (.ok trailer) st buf [] =
                ⟨some (.error e), st1, [], []⟩ := by
              simp [pollNext, hl, hi]
            rw [hpoll1] at h
            injection h with h0 h1 h2 h3
            exact Option.noConfusion h0
          | ok u =>
            cases u
            have hpoll1 : pollNext dec (.Response sc) (.ok trailer) st buf [] =
                ⟨none, st1, [], []⟩ := by
              simp [pollNext, hl, hi]
            rw [hpoll1] at h
            injection h with h0 h1 h2 h3
            subst h1
            subst h2
            have hstep : decodeLoop dec st1 [] [] = .clean st1 [] [] := by
              rw [decodeLoop, decode_chunk_nil_safe dec st1 hsafe]
              simp
            simp [pollNext, hstep, hi]
  · intro e he
    cases src with
    | nil => simp [pollNext, decodeLoop, he]
    | cons ev rest => simp [pollNext, decodeLoop, he]

/-- C7 amended witness: a naturally-ended empty `Request` stream — left in
`ReadHeader`, not the excluded `ReadBody _ 0` corner — keeps reporting end
on the next poll; a buffered flag-1 header makes the poll emit the
`Unimplemented` failure item with state, buffer and source left exactly as
they were (so the next poll is the same call). -/
theorem c7_end_behavior_amended_witness :
    pollNext lenPrefixedCodec .Request (.ok none) .ReadHeader [] [] =
      ⟨none, .ReadHeader, [], []⟩
    ∧ pollNext lenPrefixedCodec .Request (.ok none) .ReadHeader
        [1, 0, 0, 0, 0] [] =
      ⟨some (.error ⟨.Unimplemented,
          "Message compressed, compression not supported yet."⟩),
       .ReadHeader, [1, 0, 0, 0, 0], []⟩ :=
  ⟨(c7_end_behavior_amended lenPrefixedCodec .Request (.ok none) .ReadHeader
      [] []).1 .ReadHeader [] rfl (fun _ h => State.noConfusion h),
   (c7_end_behavior_amended lenPrefixedCodec .Request (.ok none) .ReadHeader
      [1, 0, 0, 0, 0] []).2
      ⟨.Unimplemented, "Message compressed, compression not supported yet."⟩
      rfl⟩

/-- C9 counterexample: the claim says `AwaitingBody` with
`compressed = true` is reachable for some input.  It is not: flag 1 makes
`decode_chunk` return the `Unimplemented` failure before any state
transition, so `is_compressed` is only ever stored as `false`.  Stated over
`DecoderReachable`, which over-approximates everything `poll_next` can do
to `(state, buffer)` (arbitrary appends and `decode_chunk` calls), for any
codec: no reachable pair carries `ReadBody true len`. -/
theorem c9_compressed_state_unreachable :
    ¬ ∃ (dec : Codec (List Nat)) (len : Nat) (buf : List Nat),
        DecoderReachable dec (State.ReadBody true len, buf) := by
  rintro ⟨dec, len, buf, h⟩
  have hu := reachable_uncompressed dec _ h
  simp [State.compressionFlag] at hu

/-- C9, amended: `AwaitingBody{compressed = true}` is unreachable — the
flag-1 header terminates the stream with the `Unimplemented` failure
before the state transition, so every reachable `AwaitingBody` state has
`compressed = false` (and the original claim's "always errors on the next
step" clause is vacuous). -/
theorem c9_compressed_never_true (dec : Codec M) (p : State × List Nat)
    (h : DecoderReachable dec p) (c : Bool) (len : Nat)
    (hs : p.1 = State.ReadBody c len) : c = false := by
  have hu := reachable_uncompressed dec p h
  rw [hs] at hu
  exact hu

/-- C9 amended witness: a concrete reachable `AwaitingBody` state — append
the header `[0,0,0,0,3]` to the fresh decoder and run `decode_chunk` once,
landing in `ReadBody false 3` — and its compression bit is `false`. -/
theorem c9_compressed_never_true_witness :
    DecoderReachable lenPrefixedCodec
      (State.ReadBody false 3, [0, 0, 0, 0, 3])
    ∧ false = false := by
  have h0 : DecoderReachable lenPrefixedCodec
      (State.ReadHeader, [0, 0, 0, 0, 3]) :=
    Relation.ReflTransGen.single
      (DecoderStep.append State.ReadHeader [] [0, 0, 0, 0, 3])
  have h1 : DecoderReachable lenPrefixedCodec
      (State.ReadBody false 3, [0, 0, 0, 0, 3]) :=
    Relation.ReflTransGen.tail h0
      (DecoderStep.decode State.ReadHeader [0, 0, 0, 0, 3])
  exact ⟨h1, c9_compressed_never_true lenPrefixedCodec _ h1 false 3 rfl⟩

end TonicDecode
